import Mathlib

/-!
Verification of `src/caffe/layers/image_data_layer.cpp` (HAKE-Action):
a shallow embedding of the manifest parser (`DataLayerSetUp`), the dataset
cursor, and the batch loader (`load_batch`), with theorems settling the
specification claims.

Conventions of the embedding:
  * `std::istringstream` over one manifest line is a list of remaining
    characters plus the fail bit (`SS`).
  * machine integers are `Int`/`Nat` (no overflow is relevant to the claims).
  * fallible or undefined behaviour (out-of-range `vector` access, a failed
    fatal `CHECK`, a retry loop that can run forever) is `Option`, with
    loops bounded by explicit fuel so that everything evaluates.
  * external collaborators (`ReadImageToCVMat` success, `InferBlobShape`,
    the RNG draw, the shuffle permutation) are parameters.
-/

set_option autoImplicit false

namespace HAKE

/-- One manifest line's parsed pair, the element type of `lines_`:
`std::pair<std::string, std::vector<std::vector<int>>>` with the two label
groups (group 0 holds "use" labels, group 1 holds "ignore" labels). -/
structure Entry where
  filename : String
  labels0 : List Int
  labels1 : List Int
deriving Repr, DecidableEq, Inhabited

/-- Modelled from the spec: `NUM_LABEL_LISTS` lives in the missing header
`image_data_layer.hpp`; the spec fixes "exactly 2 label groups" and the
source iterates `v` over `labels(NUM_LABEL_LISTS)` writing two sentinel
kinds, so the constant is 2. -/
def NUM_LABEL_LISTS : Nat := 2

/-- A `std::istringstream` over one manifest line: the remaining characters
and the fail bit.  Extraction from a failed stream is a no-op that fails. -/
structure SS where
  cs : List Char
  failed : Bool
deriving Repr, DecidableEq

/-- Whitespace skipped by formatted extraction (`std::isspace` in the
default locale). -/
def isWS (c : Char) : Bool :=
  c = ' ' || c = '\t' || c = '\n' || c = '\r' || c = Char.ofNat 11 || c = Char.ofNat 12

/-- Models `iss.peek()`: the next character, or `none` at end of input or
once the fail bit is set. -/
def SS.peek (s : SS) : Option Char :=
  if s.failed then none else s.cs.head?

/-- Models `iss.ignore()`: drop one character; a no-op on a failed stream. -/
def SS.ignore (s : SS) : SS :=
  if s.failed then s else ⟨s.cs.tail, false⟩

/-- Models `iss >> filename` (line 69): skip whitespace, extract a maximal
non-whitespace token; when no character can be extracted the fail bit is set
and the target `std::string` keeps its previous value (the `filename`
variable is declared outside the line loop). -/
def SS.readToken (s : SS) : SS × Option String :=
  if s.failed then (s, none) else
    let cs := s.cs.dropWhile isWS
    let tok := cs.takeWhile (fun c => !isWS c)
    if tok.isEmpty then (⟨cs, true⟩, none)
    else (⟨cs.dropWhile (fun c => !isWS c), false⟩, some (String.mk tok))

/-- Numeric value of a run of decimal digits. -/
def digitsVal (ds : List Char) : Nat :=
  ds.foldl (fun n c => n * 10 + (c.toNat - 48)) 0

/-- Models `iss >> label` for `int` (line 88): skip whitespace, consume an
optional sign and then digits; when no digit follows, the fail bit is set and
no value is produced. -/
def SS.readInt (s : SS) : SS × Option Int :=
  if s.failed then (s, none) else
    let cs := s.cs.dropWhile isWS
    match cs with
    | '-' :: rest =>
        let ds := rest.takeWhile Char.isDigit
        if ds.isEmpty then (⟨rest, true⟩, none)
        else (⟨rest.dropWhile Char.isDigit, false⟩, some (-(digitsVal ds : Int)))
    | '+' :: rest =>
        let ds := rest.takeWhile Char.isDigit
        if ds.isEmpty then (⟨rest, true⟩, none)
        else (⟨rest.dropWhile Char.isDigit, false⟩, some ((digitsVal ds : Int)))
    | _ =>
        let ds := cs.takeWhile Char.isDigit
        if ds.isEmpty then (⟨cs, true⟩, none)
        else (⟨cs.dropWhile Char.isDigit, false⟩, some ((digitsVal ds : Int)))

/-- Models the explicit `while (iss.peek() == ' ') iss.ignore();` loops
(lines 73-75 and 79-81): drop literal spaces (only `' '`) while the stream
has not failed. -/
def SS.skipSpaces (s : SS) : SS :=
  if s.failed then s else ⟨s.cs.dropWhile (fun c => c = ' '), false⟩

/-- The `while (iss >> label)` loop of lines 88-104, fuelled: parse integers
into the current group; after each one consume a following `label_separator`
(`sep1`), and stop - consuming it - at a `label_list_separator` (`sep2`).
Returns the stream and the labels parsed, in order. -/
def labelLoopF (sep1 sep2 : Char) : Nat → SS → SS × List Int
  | 0, s => (s, [])
  | fuel+1, s =>
    match s.readInt with
    | (s', none) => (s', [])
    | (s', some l) =>
        let s1 := if s'.peek = some sep1 then s'.ignore else s'
        if s1.peek = some sep2 then (s1.ignore, [l])
        else
          let r := labelLoopF sep1 sep2 fuel s1
          (r.1, l :: r.2)

/-- The label loop with enough fuel: every successful `readInt` consumes at
least one character, so `length + 1` rounds can never be exhausted. -/
def labelLoop (sep1 sep2 : Char) (s : SS) : SS × List Int :=
  labelLoopF sep1 sep2 (s.cs.length + 1) s

/-- One iteration of the `for (v = 0; v < labels.size(); ++v)` body
(lines 79-104): skip spaces, then either consume a leading
`label_list_separator` (an empty group, which sets `is_multi_label`), or run
the label loop.  Returns the stream, the group's labels, and whether the
leading-separator branch fired. -/
def parseGroup (sep1 sep2 : Char) (s : SS) : SS × List Int × Bool :=
  let s1 := s.skipSpaces
  if s1.peek = some sep2 then (s1.ignore, [], true)
  else
    let r := labelLoop sep1 sep2 s1
    (r.1, r.2, false)

/-- Everything the setup loop derives from the text of one manifest line
(lines 63-111): whether the line is skipped as a comment
(`iss.peek() == '#'` on the fresh stream, line 67), the token extracted into
`filename` (`none` when extraction fails and the stale variable keeps its
value), the two label groups, and the two leading-separator flags that set
`is_multi_label`. -/
structure LineOut where
  comment : Bool
  tok : Option String
  labels0 : List Int
  labels1 : List Int
  leading0 : Bool
  leading1 : Bool
deriving Repr, DecidableEq

/-- Parse one manifest line (the body of the `while (std::getline)` loop,
lines 63-113, without the state updates). -/
def parseLine (sep1 sep2 : Char) (line : String) : LineOut :=
  let s0 : SS := ⟨line.data, false⟩
  if s0.peek = some '#' then ⟨true, none, [], [], false, false⟩
  else
    let r1 := s0.readToken
    let s2 := r1.1.skipSpaces
    let g0 := parseGroup sep1 sep2 s2
    let g1 := parseGroup sep1 sep2 g0.1
    ⟨false, r1.2, g0.2.1, g1.2.1, g0.2.2, g1.2.2⟩

/-- The multi-label contribution of a single line: a leading
`label_list_separator` in either group position (lines 83-87), or more than
one label in total on the line (lines 107-111).  A comment line contributes
nothing (all its fields are empty). -/
def lineMulti (sep1 sep2 : Char) (line : String) : Bool :=
  let out := parseLine sep1 sep2 line
  out.leading0 || out.leading1 || decide (1 < out.labels0.length + out.labels1.length)

/-- The running `if (label > max_label_id) max_label_id = label;` updates
(lines 89-91) over the labels of one line. -/
def bumpMax (m : Int) (ls : List Int) : Int :=
  ls.foldl (fun a l => if l > a then l else a) m

/-- The accumulated state of the manifest-reading loop of `DataLayerSetUp`
(lines 56-114): the entries pushed into `lines_`, the running
`max_label_id` (initialized to 0), the `is_multi_label` flag, and the
`filename` variable declared outside the loop (stale across lines that fail
to extract a token). -/
structure ParseState where
  lines_ : List Entry
  max_label_id : Int
  is_multi_label : Bool
  filename : String
deriving Repr, DecidableEq

/-- One iteration of the manifest loop: a comment line changes nothing
(`continue`); any other line pushes an entry built from the token (or the
stale `filename`) and the two parsed groups, bumps `max_label_id` with every
parsed label, and ors the line's multi-label contribution into
`is_multi_label`. -/
def parseStep (sep1 sep2 : Char) (st : ParseState) (line : String) : ParseState :=
  let out := parseLine sep1 sep2 line
  if out.comment then st
  else
    let filename := out.tok.getD st.filename
    { lines_ := st.lines_ ++ [⟨filename, out.labels0, out.labels1⟩]
      max_label_id := bumpMax st.max_label_id (out.labels0 ++ out.labels1)
      is_multi_label := st.is_multi_label || out.leading0 || out.leading1
        || decide (1 < out.labels0.length + out.labels1.length)
      filename := filename }

/-- The whole manifest loop over the lines of the source file. -/
def parseManifest (sep1 sep2 : Char) (srcLines : List String) : ParseState :=
  srcLines.foldl (parseStep sep1 sep2) ⟨[], 0, false, ""⟩

/-- Lines 116-120: `num_labels_per_line_ = max_label_id + 1` in multi-label
mode, else 1. -/
def num_labels_per_line_ (st : ParseState) : Int :=
  if st.is_multi_label then st.max_label_id + 1 else 1

/-- Lines 160-166: the label blob's shape,
`[batch_size, num_labels_per_line_]`. -/
def labelShape (batch_size : Int) (st : ParseState) : List Int :=
  [batch_size, num_labels_per_line_ st]

/-- Lines 131-139: the cursor starts at 0; when `rand_skip` is configured
nonzero, `skip = caffe_rng_rand() % rand_skip` is drawn (the RNG draw `r` is
an external parameter) and the fatal `CHECK_GT(lines_.size(), skip)`
(modelled `none`) fires unless `size > skip`; otherwise `lines_id_ = skip`. -/
def randSkipSetup (rand_skip : Nat) (r : Nat) (size : Nat) : Option Nat :=
  if rand_skip ≠ 0 then
    let skip := r % rand_skip
    if size > skip then some skip else none
  else some 0

/-- Lines 140-143: at setup, load `lines_[lines_id_]` to initialize the top
blob's shape.  On an empty dataset the access is out of range, and on an
unreadable file the fatal `CHECK(cv_img.data)` fires; either way setup does
not proceed (`none`).  `readable` models `ReadImageToCVMat` succeeding on
`root_folder + filename` (the constant `root_folder` is absorbed into the
predicate). -/
def setupShapeLoad (readable : String → Bool) (lines : List Entry) (id : Nat) : Option Entry :=
  match lines[id]? with
  | none => none
  | some e => if readable e.filename then some e else none

/-- The state the prefetch thread mutates across `load_batch` calls:
`lines_` (reordered by `ShuffleImages`, never resized) and the cursor
`lines_id_`. -/
structure LayerState where
  lines_ : List Entry
  lines_id_ : Nat
deriving Repr, DecidableEq

/-- The cursor advance of lines 273-282 (repeated verbatim inside both retry
loops): increment `lines_id_`; at the end of the dataset wrap to 0 and, when
shuffling is enabled, reshuffle.  `ShuffleImages` permutes `lines_` with the
layer's RNG; the permutation is the external parameter `σ`. -/
def advanceCursor (doShuffle : Bool) (σ : List Entry → List Entry) (st : LayerState) : LayerState :=
  let id := st.lines_id_ + 1
  if id ≥ st.lines_.length then
    ⟨if doShuffle then σ st.lines_ else st.lines_, 0⟩
  else ⟨st.lines_, id⟩

/-- The `while (!cv_img.data)` skip-and-retry loops (lines 195-210 and
232-245): try the entry at the cursor; on failure log, advance the cursor
(wraparound and reshuffle-if-enabled), and retry.  The C++ loop runs forever
when no entry is readable, and indexing out of range is undefined; both are
`none`, with the search bounded by explicit fuel.  On success the returned
state still has the cursor on the loaded entry. -/
def retryLoad (readable : String → Bool) (doShuffle : Bool)
    (σ : List Entry → List Entry) : Nat → LayerState → Option (Entry × LayerState)
  | 0, _ => none
  | fuel+1, st =>
    match st.lines_[st.lines_id_]? with
    | none => none
    | some e =>
      if readable e.filename then some (e, st)
      else retryLoad readable doShuffle σ fuel (advanceCursor doShuffle σ st)

/-- The batch-fill loop of lines 226-283 restricted to its cursor effects:
for each slot, find the next loadable entry by skip-and-retry, record the
cursor index it was found at together with the entry, then advance the
cursor once.  The fatal `CHECK_GT(lines_size, lines_id_)` and out-of-range
accesses are `none`. -/
def fillItems (readable : String → Bool) (doShuffle : Bool)
    (σ : List Entry → List Entry) (fuel : Nat) :
    Nat → LayerState → Option (List (Nat × Entry) × LayerState)
  | 0, st => some ([], st)
  | b+1, st => do
      let r ← retryLoad readable doShuffle σ fuel st
      let rest ← fillItems readable doShuffle σ fuel b (advanceCursor doShuffle σ r.2)
      pure ((r.2.lines_id_, r.1) :: rest.1, rest.2)

/-- One write `prefetch_label[label_offset + label_id] = LABEL_VALUES[v]`
(line 268) inside a slot's label row: an index outside `[0, width)` leaves
the row and is an out-of-bounds write (`none`).  The conflict check of lines
263-266 is commented out in the source, so an already-set slot is silently
overwritten. -/
def setLabel (row : List Int) (i : Int) (v : Int) : Option (List Int) :=
  if 0 ≤ i ∧ i.toNat < row.length then some (row.set i.toNat v) else none

/-- The `for (v ...) for (l ...)` sentinel writes of lines 259-270 for one
slot: every id in group 0 gets `LABEL_VALUES[0] = USE_LABEL` and every id in
group 1 gets `LABEL_VALUES[1] = ignore_label_` (both sentinels live in the
missing header and are kept abstract). -/
def writeRow (useLabel ignoreLabel : Int) (e : Entry) (row : List Int) : Option (List Int) := do
  let r0 ← e.labels0.foldlM (fun r i => setLabel r i useLabel) row
  e.labels1.foldlM (fun r i => setLabel r i ignoreLabel) r0

/-- One slot's label row (lines 254-271).  Single-label mode
(`num_labels_per_line_ == 1`) writes the lone value
`lines_[lines_id_].second[0][0]`, an unchecked access that is out of bounds
when group 0 is empty; multi-label mode performs the sentinel writes into
the row zero-initialized by the batch-wide `caffe_set` of line 222. -/
def slotLabelRow (useLabel ignoreLabel : Int) (num_labels : Nat) (e : Entry) : Option (List Int) :=
  if num_labels = 1 then (e.labels0[0]?).map (fun l => [l])
  else writeRow useLabel ignoreLabel e (List.replicate num_labels 0)

/-- The label tensor produced by one `load_batch` call: `caffe_set` zeroes
all `batch_size * num_labels_per_line_` values once before the fill loop
(line 222) - so nothing survives from the recycled buffer - and each slot
then writes its own row. -/
def batchLabels (useLabel ignoreLabel : Int) (num_labels : Nat) (items : List Entry) :
    Option (List (List Int)) :=
  items.mapM (slotLabelRow useLabel ignoreLabel num_labels)

/-- The observable result of one `load_batch` call (lines 178-288). -/
structure BatchOut where
  shapeEntry : Entry
  dataShape : List Int
  items : List (Nat × Entry)
  labelRows : List (List Int)
  final : LayerState
deriving Repr, DecidableEq

/-- `load_batch` (lines 178-288): find the first loadable entry by
skip-and-retry and infer the batch's data shape from it (`InferBlobShape`
is the external parameter `inferShape`, and `top_shape[0] = batch_size`);
the cursor is not advanced by this shape-inference load, so the fill loop
reuses the same entry for slot 0.  Then fill `batch_size` slots
(skip-and-retry each) and produce the label tensor. -/
def load_batch (readable : String → Bool) (inferShape : String → List Int)
    (doShuffle : Bool) (σ : List Entry → List Entry)
    (useLabel ignoreLabel : Int) (batch_size num_labels : Nat)
    (fuel : Nat) (st : LayerState) : Option BatchOut := do
  let se ← retryLoad readable doShuffle σ fuel st
  let shape := (inferShape se.1.filename).set 0 (batch_size : Int)
  let items ← fillItems readable doShuffle σ fuel batch_size se.2
  let rows ← batchLabels useLabel ignoreLabel num_labels (items.1.map Prod.snd)
  pure ⟨se.1, shape, items.1, rows, items.2⟩

/-- The bare cursor discipline of the fill loop with the loads stripped out:
read `lines_[lines_id_]`, then advance with wraparound and
reshuffle-if-enabled (lines 273-282), `m` times. -/
def cursorConsume (doShuffle : Bool) (σ : List Entry → List Entry) :
    Nat → LayerState → List (Option Entry) × LayerState
  | 0, st => ([], st)
  | m+1, st =>
      let r := cursorConsume doShuffle σ m (advanceCursor doShuffle σ st)
      (st.lines_[st.lines_id_]? :: r.1, r.2)

/-- A concrete entry used to instantiate theorems with hypotheses. -/
def eA : Entry := ⟨"a", [0], []⟩

/-- A concrete entry used to instantiate theorems with hypotheses. -/
def eB : Entry := ⟨"b", [1], []⟩

/-- A concrete entry used to instantiate theorems with hypotheses. -/
def eC : Entry := ⟨"c", [2], []⟩

/-- A concrete entry used to instantiate theorems with hypotheses. -/
def eD : Entry := ⟨"d", [3], []⟩

/-- A concrete entry used to instantiate theorems with hypotheses. -/
def eE : Entry := ⟨"e", [4], []⟩

/-- The concrete batch produced from the dataset `[eA, eB]` with batch size
2, used to instantiate the shape-inference theorem. -/
def outAB : BatchOut :=
  ⟨eA, [2, 3, 4, 5], [(0, eA), (1, eB)], [[0], [1]], ⟨[eA, eB], 0⟩⟩

/-! ## Helper lemmas about the parser -/

theorem parseLine_comment (sep1 sep2 : Char) (line : String)
    (h : (parseLine sep1 sep2 line).comment = true) :
    parseLine sep1 sep2 line = ⟨true, none, [], [], false, false⟩ := by
  by_cases hc : SS.peek ⟨line.data, false⟩ = some '#'
  · simp [parseLine, hc]
  · simp [parseLine, hc] at h

theorem parseStep_multi (sep1 sep2 : Char) (st : ParseState) (line : String) :
    (parseStep sep1 sep2 st line).is_multi_label
      = (st.is_multi_label || lineMulti sep1 sep2 line) := by
  by_cases hc : (parseLine sep1 sep2 line).comment = true
  · rw [parseStep, lineMulti, parseLine_comment sep1 sep2 line hc]
    simp
  · rw [parseStep, lineMulti]
    simp only [Bool.not_eq_true] at hc
    simp [hc, Bool.or_assoc]

theorem foldl_parseStep_multi (sep1 sep2 : Char) (srcLines : List String) :
    ∀ st : ParseState,
      (srcLines.foldl (parseStep sep1 sep2) st).is_multi_label
        = (st.is_multi_label || srcLines.any (lineMulti sep1 sep2)) := by
  induction srcLines with
  | nil => intro st; simp
  | cons l ls ih =>
      intro st
      simp only [List.foldl_cons, List.any_cons]
      rw [ih, parseStep_multi, Bool.or_assoc]

theorem parseManifest_multi_any (sep1 sep2 : Char) (srcLines : List String) :
    (parseManifest sep1 sep2 srcLines).is_multi_label
      = srcLines.any (lineMulti sep1 sep2) := by
  rw [parseManifest, foldl_parseStep_multi]
  simp

/-! ## Claim theorems: manifest parsing -/

/-- C1 (counterexample): the manifest line `"a.jpg 3;"` contains the
`label_list_separator` `';'`, yet the parser leaves `is_multi_label` false
and `num_labels_per_line_` at 1 rather than `max_label_id + 1 = 4`: the
separator consumed after a parsed label at lines 100-103 does not set
`is_multi_label` (only the group-leading check at lines 83-87 does). -/
theorem c1_counterexample :
    ("a.jpg 3;".data.contains ';' = true) ∧
    (parseManifest ',' ';' ["a.jpg 3;"]).is_multi_label = false ∧
    (parseManifest ',' ';' ["a.jpg 3;"]).max_label_id = 3 ∧
    num_labels_per_line_ (parseManifest ',' ';' ["a.jpg 3;"]) = 1 := by
  refine ⟨by decide, by decide, by decide, by decide⟩

/-- C1 (amended): the parser marks the dataset multi-label exactly when some
line contributes a multi-label trigger, where a line's trigger is a
`label_list_separator` found at the leading position of one of its two label
groups, or more than one total label value parsed on the line; afterwards
`num_labels_per_line_` equals `max_label_id + 1` when a trigger occurred and
1 otherwise, and the batch label tensor shape has `num_labels_per_line_`
columns.  (A separator consumed after a parsed label - e.g. a trailing one -
is not a trigger, contrary to the claim as stated.) -/
theorem c1_multi_label_characterization (sep1 sep2 : Char) (srcLines : List String)
    (batch_size : Int) :
    (parseManifest sep1 sep2 srcLines).is_multi_label
        = srcLines.any (lineMulti sep1 sep2) ∧
    num_labels_per_line_ (parseManifest sep1 sep2 srcLines)
        = (if srcLines.any (lineMulti sep1 sep2)
            then (parseManifest sep1 sep2 srcLines).max_label_id + 1 else 1) ∧
    labelShape batch_size (parseManifest sep1 sep2 srcLines)
        = [batch_size, num_labels_per_line_ (parseManifest sep1 sep2 srcLines)] := by
  refine ⟨parseManifest_multi_any sep1 sep2 srcLines, ?_, rfl⟩
  rw [num_labels_per_line_, parseManifest_multi_any]

/-- C5 (counterexample): the line `" #c"` has `'#'` as its first non-space
character, but `iss.peek()` at line 67 looks at the raw first character
(`' '`) without skipping whitespace, so the line is not treated as a comment
and contributes the entry `("#c", [[], []])` to the dataset. -/
theorem c5_counterexample :
    ((" #c".data.dropWhile (fun c => c = ' ')).head? = some '#') ∧
    (parseManifest ',' ';' [" #c"]).lines_ = [⟨"#c", [], []⟩] := by
  refine ⟨by decide, by decide⟩

/-- C5 (amended): a line whose very first character is `'#'` (no leading
whitespace is skipped before the peek) is skipped as a comment: the loop
iteration leaves the whole parser state unchanged, so no entry is
contributed. -/
theorem c5_comment_skip (sep1 sep2 : Char) (st : ParseState) (line : String)
    (h : line.data.head? = some '#') :
    parseStep sep1 sep2 st line = st := by
  rw [parseStep, parseLine]
  simp [SS.peek, h]

/-- Witness for `c5_comment_skip` at the concrete line `"#x"`. -/
theorem c5_comment_skip_witness :
    parseStep ',' ';' ⟨[], 0, false, ""⟩ "#x" = ⟨[], 0, false, ""⟩ :=
  c5_comment_skip ',' ';' ⟨[], 0, false, ""⟩ "#x" (by decide)

/-- C9: an empty manifest source yields an empty dataset, and the
shape-inference load of lines 140-143 (which indexes `lines_[lines_id_]`
and fatally checks the decoded image) then fails rather than proceeding. -/
theorem c9_empty_manifest (sep1 sep2 : Char) (readable : String → Bool) :
    (parseManifest sep1 sep2 []).lines_ = [] ∧
    setupShapeLoad readable (parseManifest sep1 sep2 []).lines_ 0 = none :=
  ⟨rfl, rfl⟩

/-- C6 (counterexample): with `rand_skip = 5`, a dataset of 2 entries and an
RNG draw of 1, the drawn skip is `1 % ... = 1 < 2`, so setup does not raise
the fatal check even though `rand_skip ≥ len(Dataset)`: the
`CHECK_GT(lines_.size(), skip)` of line 137 tests the drawn skip, not
`rand_skip`. -/
theorem c6_counterexample :
    2 ≤ 5 ∧ randSkipSetup 5 1 2 = some 1 := by
  refine ⟨by decide, by decide⟩

/-- C6 (amended): when `rand_skip` is configured nonzero, setup draws
`skip = r % rand_skip`, an offset in `[0, rand_skip)`, and raises the fatal
error exactly when that drawn offset is not less than `len(Dataset)`;
otherwise the initial cursor is advanced by the drawn offset. -/
theorem c6_rand_skip (rand_skip r size : Nat) (h : rand_skip ≠ 0) :
    randSkipSetup rand_skip r size
      = (if r % rand_skip < size then some (r % rand_skip) else none) ∧
    r % rand_skip < rand_skip := by
  refine ⟨by simp [randSkipSetup, h], Nat.mod_lt _ (Nat.pos_of_ne_zero h)⟩

/-- Witness for `c6_rand_skip` at `rand_skip = 3`, draw 7, dataset size 5. -/
theorem c6_rand_skip_witness :
    randSkipSetup 3 7 5 = (if 7 % 3 < 5 then some (7 % 3) else none) ∧ 7 % 3 < 3 :=
  c6_rand_skip 3 7 5 (by decide)

/-- C3: parsing `"a.jpg 3,7;2"` and `"b.jpg 0"` with separators `','` and
`';'` puts the dataset in multi-label mode with `num_labels_per_line_ = 8`,
and the batch label rows - each starting from the all-zero row laid down by
the batch-wide `caffe_set` of line 222 - have the group-0 ids set to the
"use" sentinel and the group-1 ids to the "ignore" sentinel, all other
entries 0; a label id occurring in both groups is overwritten silently (the
conflict check of lines 263-266 is commented out), the later group-1 write
winning. -/
theorem c3_multi_label_rows (useLabel ignoreLabel : Int) :
    (parseManifest ',' ';' ["a.jpg 3,7;2", "b.jpg 0"]).is_multi_label = true ∧
    num_labels_per_line_ (parseManifest ',' ';' ["a.jpg 3,7;2", "b.jpg 0"]) = 8 ∧
    (parseManifest ',' ';' ["a.jpg 3,7;2", "b.jpg 0"]).lines_
        = [⟨"a.jpg", [3, 7], [2]⟩, ⟨"b.jpg", [0], []⟩] ∧
    batchLabels useLabel ignoreLabel 8 [⟨"a.jpg", [3, 7], [2]⟩, ⟨"b.jpg", [0], []⟩]
        = some [[0, 0, ignoreLabel, useLabel, 0, 0, 0, useLabel],
                [useLabel, 0, 0, 0, 0, 0, 0, 0]] ∧
    batchLabels useLabel ignoreLabel 8 [⟨"c.jpg", [2], [2]⟩]
        = some [[0, 0, ignoreLabel, 0, 0, 0, 0, 0]] := by
  refine ⟨by decide, by decide, by decide, rfl, rfl⟩

/-- C10: a manifest line consisting of only a filename parses to an entry
with an empty group 0 while leaving the dataset in single-label mode
(`num_labels_per_line_ = 1`); the single-label write
`lines_[lines_id_].second[0][0]` of line 255 is unguarded, and on such an
entry the read is out of bounds (`none`): in general the single-label row
exists exactly when the entry's group 0 is non-empty. -/
theorem c10_single_label_oob (useLabel ignoreLabel : Int) :
    num_labels_per_line_ (parseManifest ',' ';' ["a.jpg"]) = 1 ∧
    (parseManifest ',' ';' ["a.jpg"]).lines_ = [⟨"a.jpg", [], []⟩] ∧
    batchLabels useLabel ignoreLabel 1 (parseManifest ',' ';' ["a.jpg"]).lines_ = none ∧
    (∀ e : Entry, (slotLabelRow useLabel ignoreLabel 1 e = none ↔ e.labels0 = [])) := by
  refine ⟨by decide, by decide, rfl, ?_⟩
  intro e
  cases h : e.labels0 with
  | nil => simp [slotLabelRow, h]
  | cons a l => simp [slotLabelRow, h]

/-! ## Helper lemmas about the cursor and the retry loops -/

theorem advance_no_shuffle (σ : List Entry → List Entry) (L : List Entry) (i : Nat)
    (hi : i < L.length) :
    advanceCursor false σ ⟨L, i⟩ = ⟨L, (i + 1) % L.length⟩ := by
  rw [advanceCursor]
  by_cases h : i + 1 ≥ L.length
  · have h1 : i + 1 = L.length := by omega
    have h2 : (i + 1) % L.length = 0 := by rw [h1]; exact Nat.mod_self _
    simp [h, h2]
  · simp only [ge_iff_le, not_le] at h
    simp [Nat.not_le.mpr h, Nat.mod_eq_of_lt h]

theorem retry_stable (readable : String → Bool) (ds : Bool)
    (σ : List Entry → List Entry) (f : Nat) (st : LayerState) (e : Entry)
    (hg : st.lines_[st.lines_id_]? = some e) (hr : readable e.filename = true) :
    retryLoad readable ds σ (f + 1) st = some (e, st) := by
  rw [retryLoad, hg]
  simp [hr]

theorem retry_hit (readable : String → Bool) (ds : Bool)
    (σ : List Entry → List Entry) (f : Nat) (L : List Entry) (p : Nat)
    (hp : p < L.length) (hr : readable (L[p].filename) = true) :
    retryLoad readable ds σ (f + 1) ⟨L, p⟩ = some (L[p], ⟨L, p⟩) :=
  retry_stable readable ds σ f ⟨L, p⟩ L[p] (List.getElem?_eq_getElem hp) hr

theorem retry_post (readable : String → Bool) (ds : Bool)
    (σ : List Entry → List Entry) :
    ∀ (fuel : Nat) (st : LayerState) (e : Entry) (st' : LayerState),
      retryLoad readable ds σ fuel st = some (e, st') →
      st'.lines_[st'.lines_id_]? = some e ∧ readable e.filename = true := by
  intro fuel
  induction fuel with
  | zero => intro st e st' h; simp [retryLoad] at h
  | succ f ih =>
      intro st e st' h
      rw [retryLoad] at h
      cases hg : st.lines_[st.lines_id_]? with
      | none => rw [hg] at h; simp at h
      | some e0 =>
          rw [hg] at h
          by_cases hr : readable e0.filename = true
          · simp only [hr, if_true, Option.some.injEq, Prod.mk.injEq] at h
            obtain ⟨he, hst⟩ := h
            subst he; subst hst
            exact ⟨hg, hr⟩
          · simp only [Bool.not_eq_true] at hr
            simp only [hr, Bool.false_eq_true, if_false] at h
            exact ih _ e st' h

theorem cursorConsume_no_shuffle (σ : List Entry → List Entry) (L : List Entry) :
    ∀ (m i : Nat), i < L.length →
      cursorConsume false σ m ⟨L, i⟩
        = ((List.range m).map (fun a => L[(i + a) % L.length]?),
           ⟨L, (i + m) % L.length⟩) := by
  intro m
  induction m with
  | zero =>
      intro i hi
      simp [cursorConsume, Nat.mod_eq_of_lt hi]
  | succ m ih =>
      intro i hi
      have hlt : (i + 1) % L.length < L.length := Nat.mod_lt _ (by omega)
      rw [cursorConsume, advance_no_shuffle σ L i hi, ih _ hlt]
      have hfun : (fun a => L[((i + 1) % L.length + a) % L.length]?)
          = fun a => L[(i + (a + 1)) % L.length]? := by
        funext a
        rw [Nat.mod_add_mod]
        have h3 : i + 1 + a = i + (a + 1) := by omega
        rw [h3]
      refine Prod.ext ?_ ?_
      · show L[i]? :: _ = _
        rw [hfun, List.range_succ_eq_map, List.map_cons, List.map_map]
        have h0 : (i + 0) % L.length = i := by
          rw [Nat.add_zero]; exact Nat.mod_eq_of_lt hi
        rw [h0]
        rfl
      · show LayerState.mk L (((i + 1) % L.length + m) % L.length) = _
        rw [Nat.mod_add_mod]
        have h3 : i + 1 + m = i + (m + 1) := by omega
        rw [h3]

theorem map_getElem?_range {α : Type} (L : List α) :
    (List.range L.length).map (fun a => L[a]?) = L.map some := by
  induction L with
  | nil => simp
  | cons x xs ih =>
      rw [List.length_cons, List.range_succ_eq_map, List.map_cons, List.map_map]
      simp only [List.getElem?_cons_zero, List.map_cons]
      congr 1
      rw [← ih]
      refine List.map_congr_left ?_
      intro a _
      simp [Nat.succ_eq_add_one, List.getElem?_cons_succ]

theorem getD_eq_getElem (L : List Entry) (i : Nat) (hi : i < L.length) :
    L.getD i default = L[i] := by
  rw [List.getD_eq_getElem?_getD, List.getElem?_eq_getElem hi]
  rfl

theorem fillItems_succ (readable : String → Bool) (ds : Bool)
    (σ : List Entry → List Entry) (fuel b : Nat) (st : LayerState) :
    fillItems readable ds σ fuel (b + 1) st
      = (retryLoad readable ds σ fuel st).bind (fun r =>
          (fillItems readable ds σ fuel b (advanceCursor ds σ r.2)).bind (fun rest =>
            some ((r.2.lines_id_, r.1) :: rest.1, rest.2))) := by
  rfl

theorem load_batch_eq (readable : String → Bool) (inferShape : String → List Int)
    (ds : Bool) (σ : List Entry → List Entry) (useLabel ignoreLabel : Int)
    (b nl fuel : Nat) (st : LayerState) :
    load_batch readable inferShape ds σ useLabel ignoreLabel b nl fuel st
      = (retryLoad readable ds σ fuel st).bind (fun se =>
          (fillItems readable ds σ fuel b se.2).bind (fun items =>
            (batchLabels useLabel ignoreLabel nl (items.1.map Prod.snd)).bind (fun rows =>
              some ⟨se.1, (inferShape se.1.filename).set 0 (b : Int),
                    items.1, rows, items.2⟩))) := by
  rfl

theorem fill_all_readable (readable : String → Bool) (σ : List Entry → List Entry)
    (L : List Entry) (hall : ∀ e ∈ L, readable e.filename = true) (f : Nat) :
    ∀ (b i : Nat), i < L.length →
      fillItems readable false σ (f + 1) b ⟨L, i⟩
        = some ((List.range b).map
            (fun a => ((i + a) % L.length, L.getD ((i + a) % L.length) default)),
            ⟨L, (i + b) % L.length⟩) := by
  intro b
  induction b with
  | zero =>
      intro i hi
      simp [fillItems, Nat.mod_eq_of_lt hi]
  | succ b ih =>
      intro i hi
      have hre : readable (L[i].filename) = true := hall _ (List.getElem_mem hi)
      have hlt : (i + 1) % L.length < L.length := Nat.mod_lt _ (by omega)
      rw [fillItems_succ, retry_hit readable false σ f L i hi hre, Option.some_bind,
        advance_no_shuffle σ L i hi, ih _ hlt, Option.some_bind]
      have hfun : (fun a => (((i + 1) % L.length + a) % L.length,
            L.getD (((i + 1) % L.length + a) % L.length) default))
          = fun a => ((i + (a + 1)) % L.length, L.getD ((i + (a + 1)) % L.length) default) := by
        funext a
        rw [Nat.mod_add_mod]
        have h3 : i + 1 + a = i + (a + 1) := by omega
        rw [h3]
      rw [hfun]
      congr 1
      refine Prod.ext ?_ ?_
      · show ((⟨L, i⟩ : LayerState).lines_id_, L[i]) :: _ = _
        rw [List.range_succ_eq_map, List.map_cons, List.map_map]
        have h0 : (i + 0) % L.length = i := by
          rw [Nat.add_zero]; exact Nat.mod_eq_of_lt hi
        rw [h0, getD_eq_getElem L i hi]
        rfl
      · show LayerState.mk L (((i + 1) % L.length + b) % L.length) = _
        rw [Nat.mod_add_mod]
        have h3 : i + 1 + b = i + (b + 1) := by omega
        rw [h3]

theorem retry_skip_one (readable : String → Bool) (σ : List Entry → List Entry)
    (f : Nat) (L : List Entry) (k : Nat) (hk1 : k + 1 < L.length)
    (hku : readable (L[k].filename) = false)
    (hkr : readable (L[k + 1].filename) = true) :
    retryLoad readable false σ (f + 2) ⟨L, k⟩ = some (L[k + 1], ⟨L, k + 1⟩) := by
  have hk : k < L.length := by omega
  rw [retryLoad, List.getElem?_eq_getElem hk]
  simp only [hku, Bool.false_eq_true, if_false]
  rw [advance_no_shuffle σ L k hk, Nat.mod_eq_of_lt hk1]
  exact retry_hit readable false σ f L (k + 1) hk1 hkr

theorem map_getD_range {α : Type} [Inhabited α] (L : List α) :
    (List.range L.length).map (fun j => L.getD j default) = L := by
  induction L with
  | nil => simp
  | cons x xs ih =>
      rw [List.length_cons, List.range_succ_eq_map, List.map_cons, List.map_map,
        List.getD_cons_zero]
      have h2 : ((fun j => (x :: xs).getD j default) ∘ Nat.succ)
          = fun j => xs.getD j default := by
        funext j
        simp [Function.comp, Nat.succ_eq_add_one, List.getD_cons_succ]
      rw [h2, ih]

theorem map_getD_filter_range {α : Type} [Inhabited α] :
    ∀ (L : List α) (k : Nat), k < L.length →
      ((List.range L.length).filter (fun j => decide (j ≠ k))).map
          (fun j => L.getD j default)
        = L.eraseIdx k := by
  intro L
  induction L with
  | nil => intro k hk; simp at hk
  | cons x xs ih =>
      intro k hk
      rw [List.length_cons, List.range_succ_eq_map]
      cases k with
      | zero =>
          rw [List.eraseIdx_cons_zero]
          have h1 : List.filter (fun j => decide (j ≠ 0))
                (List.map Nat.succ (List.range xs.length))
              = List.map Nat.succ (List.range xs.length) := by
            refine List.filter_eq_self.mpr ?_
            intro a ha
            obtain ⟨a0, _, rfl⟩ := List.mem_map.mp ha
            simp
          rw [List.filter_cons, if_neg (by simp), h1, List.map_map]
          have h2 : ((fun j => (x :: xs).getD j default) ∘ Nat.succ)
              = fun j => xs.getD j default := by
            funext j
            simp [Function.comp, Nat.succ_eq_add_one, List.getD_cons_succ]
          rw [h2, map_getD_range]
      | succ k' =>
          have hk' : k' < xs.length := by
            rw [List.length_cons] at hk; omega
          rw [List.eraseIdx_cons_succ, List.filter_cons]
          have hp0 : (fun j => decide (j ≠ (k' + 1))) 0 = true := by simp
          simp only [hp0, if_true]
          rw [List.filter_map]
          have hpred : List.filter ((fun j => decide (j ≠ (k' + 1))) ∘ Nat.succ)
                (List.range xs.length)
              = List.filter (fun j => decide (j ≠ k')) (List.range xs.length) := by
            refine List.filter_congr ?_
            intro a _
            simp [Function.comp, Nat.succ_eq_add_one]
          rw [hpred, List.map_cons, List.map_map, List.getD_cons_zero]
          congr 1
          rw [← ih k' hk']
          refine List.map_congr_left ?_
          intro a _
          simp [Function.comp, Nat.succ_eq_add_one, List.getD_cons_succ]

theorem fill_skip (L : List Entry) (k : Nat) (readable : String → Bool)
    (σ : List Entry → List Entry) (fuel : Nat)
    (hk : k < L.length)
    (hr : ∀ (j : Nat) (hj : j < L.length), readable (L[j].filename) = decide (j ≠ k))
    (hfuel : 2 ≤ fuel) :
    ∀ (b p : Nat), p < L.length → b + (if p ≤ k then 1 else 0) ≤ L.length - p →
      ∃ items stf,
        fillItems readable false σ fuel b ⟨L, p⟩ = some (items, stf) ∧
        items.map Prod.fst
          = ((List.range' p (L.length - p)).filter (fun j => decide (j ≠ k))).take b ∧
        items.map Prod.snd
          = (((List.range' p (L.length - p)).filter (fun j => decide (j ≠ k))).take b).map
              (fun j => L.getD j default) := by
  obtain ⟨f, rfl⟩ : ∃ f, fuel = f + 2 := ⟨fuel - 2, by omega⟩
  intro b
  induction b with
  | zero =>
      intro p hp hb
      exact ⟨[], ⟨L, p⟩, rfl, by simp, by simp⟩
  | succ b ih =>
      intro p hp hb
      by_cases hpk : p = k
      · subst hpk
        have hb2 : b + 2 ≤ L.length - p := by
          simp only [le_refl, if_true] at hb; omega
        have hk1 : p + 1 < L.length := by omega
        have hku : readable (L[p].filename) = false := by
          have h0 := hr p hp
          simpa using h0
        have hkr : readable (L[p + 1].filename) = true := by
          have h0 := hr (p + 1) hk1
          simpa using h0
        rw [fillItems_succ, retry_skip_one readable σ f L p hk1 hku hkr, Option.some_bind,
          advance_no_shuffle σ L (p + 1) hk1]
        by_cases hend : p + 1 + 1 = L.length
        · have hb0 : b = 0 := by omega
          subst hb0
          have hm : (p + 1 + 1) % L.length = 0 := by rw [hend]; exact Nat.mod_self _
          rw [hm]
          refine ⟨[(p + 1, L[p + 1])], ⟨L, 0⟩, rfl, ?_, ?_⟩
          · have hlen : L.length - p = 2 := by omega
            rw [hlen, List.range'_succ, List.range'_succ]
            show [p + 1] = (List.filter _ [p, p + 1]).take 1
            rw [List.filter_cons, if_neg (by simp)]
            rw [List.filter_cons, if_pos (by simp), List.filter_nil, List.take_succ_cons,
              List.take_zero]
          · have hlen : L.length - p = 2 := by omega
            rw [hlen, List.range'_succ, List.range'_succ]
            show [L[p + 1]] = ((List.filter _ [p, p + 1]).take 1).map _
            rw [List.filter_cons, if_neg (by simp)]
            rw [List.filter_cons, if_pos (by simp), List.filter_nil, List.take_succ_cons,
              List.take_zero, List.map_cons, List.map_nil]
            simp [List.getD_eq_getElem?_getD, List.getElem?_eq_getElem hk1]
        · have hlt : p + 1 + 1 < L.length := by omega
          rw [Nat.mod_eq_of_lt hlt]
          obtain ⟨items', stf', heq', hfst', hsnd'⟩ := ih (p + 1 + 1) hlt (by
            rw [if_neg (by omega)]
            omega)
          rw [heq', Option.some_bind]
          refine ⟨(p + 1, L[p + 1]) :: items', stf', rfl, ?_, ?_⟩
          · obtain ⟨m, hm⟩ : ∃ m, L.length - p = m + 2 := ⟨L.length - p - 2, by omega⟩
            have hmm : m = L.length - (p + 1 + 1) := by omega
            rw [hm, List.range'_succ, List.range'_succ]
            rw [List.filter_cons, if_neg (by simp)]
            rw [List.filter_cons, if_pos (by simp)]
            rw [List.take_succ_cons, List.map_cons, hmm, hfst']
          · obtain ⟨m, hm⟩ : ∃ m, L.length - p = m + 2 := ⟨L.length - p - 2, by omega⟩
            have hmm : m = L.length - (p + 1 + 1) := by omega
            rw [hm, List.range'_succ, List.range'_succ]
            rw [List.filter_cons, if_neg (by simp)]
            rw [List.filter_cons, if_pos (by simp)]
            rw [List.take_succ_cons, List.map_cons, List.map_cons, hmm, hsnd']
            simp [List.getD_eq_getElem?_getD, List.getElem?_eq_getElem hk1]
      · have hpr : readable (L[p].filename) = true := by
          rw [hr p hp]
          simp [hpk]
        rw [fillItems_succ, retry_hit readable false σ (f + 1) L p hp hpr, Option.some_bind,
          advance_no_shuffle σ L p hp]
        by_cases hend : p + 1 = L.length
        · have hkp : k < p := by omega
          have hb0 : b = 0 := by
            rw [if_neg (by omega)] at hb
            omega
          subst hb0
          have hm : (p + 1) % L.length = 0 := by rw [hend]; exact Nat.mod_self _
          rw [hm]
          refine ⟨[(p, L[p])], ⟨L, 0⟩, rfl, ?_, ?_⟩
          · have hlen : L.length - p = 1 := by omega
            rw [hlen, List.range'_succ]
            show [p] = (List.filter _ [p]).take 1
            rw [List.filter_cons, if_pos (by simp [hpk]), List.filter_nil,
              List.take_succ_cons, List.take_zero]
          · have hlen : L.length - p = 1 := by omega
            rw [hlen, List.range'_succ]
            show [L[p]] = ((List.filter _ [p]).take 1).map _
            rw [List.filter_cons, if_pos (by simp [hpk]), List.filter_nil,
              List.take_succ_cons, List.take_zero, List.map_cons, List.map_nil]
            simp [List.getD_eq_getElem?_getD, List.getElem?_eq_getElem hp]
        · have hlt : p + 1 < L.length := by omega
          rw [Nat.mod_eq_of_lt hlt]
          obtain ⟨items', stf', heq', hfst', hsnd'⟩ := ih (p + 1) hlt (by
            by_cases hpk1 : p + 1 ≤ k
            · rw [if_pos hpk1]
              rw [if_pos (by omega)] at hb
              omega
            · rw [if_neg hpk1]
              by_cases hple : p ≤ k
              · rw [if_pos hple] at hb
                omega
              · rw [if_neg hple] at hb
                omega)
          rw [heq', Option.some_bind]
          refine ⟨(p, L[p]) :: items', stf', rfl, ?_, ?_⟩
          · obtain ⟨m, hm⟩ : ∃ m, L.length - p = m + 1 := ⟨L.length - p - 1, by omega⟩
            have hmm : m = L.length - (p + 1) := by omega
            rw [hm, List.range'_succ]
            rw [List.filter_cons, if_pos (by simp [hpk])]
            rw [List.take_succ_cons, List.map_cons, hmm, hfst']
          · obtain ⟨m, hm⟩ : ∃ m, L.length - p = m + 1 := ⟨L.length - p - 1, by omega⟩
            have hmm : m = L.length - (p + 1) := by omega
            rw [hm, List.range'_succ]
            rw [List.filter_cons, if_pos (by simp [hpk])]
            rw [List.take_succ_cons, List.map_cons, List.map_cons, hmm, hsnd']
            simp [List.getD_eq_getElem?_getD, List.getElem?_eq_getElem hp]

/-! ## Claim theorems: cursor traversal -/

/-- C4: with shuffling disabled, reading `lines_[lines_id_]` and advancing
the cursor (the discipline of lines 273-282) `len(Dataset)` times from the
start returns exactly one full traversal of the dataset in original order,
the cursor is back at 0 afterwards, and the `(len+1)`-th consumption returns
the first entry again. -/
theorem c4_cursor_traversal (L : List Entry) (σ : List Entry → List Entry)
    (h : L ≠ []) :
    (cursorConsume false σ L.length ⟨L, 0⟩).1 = L.map some ∧
    (cursorConsume false σ L.length ⟨L, 0⟩).2 = ⟨L, 0⟩ ∧
    (cursorConsume false σ (L.length + 1) ⟨L, 0⟩).1 = L.map some ++ [L[0]?] := by
  have hn : 0 < L.length := List.length_pos.mpr h
  have hmap : ∀ m, (List.range m).map (fun a => L[(0 + a) % L.length]?)
      = (List.range m).map (fun a => L[a % L.length]?) := by
    intro m
    refine List.map_congr_left ?_
    intro a _
    rw [Nat.zero_add]
  have hmod : (List.range L.length).map (fun a => L[a % L.length]?) = L.map some := by
    rw [← map_getElem?_range L]
    refine List.map_congr_left ?_
    intro a ha
    rw [Nat.mod_eq_of_lt (List.mem_range.mp ha)]
  refine ⟨?_, ?_, ?_⟩
  · rw [cursorConsume_no_shuffle σ L L.length 0 hn]
    show (List.range L.length).map _ = _
    rw [hmap, hmod]
  · rw [cursorConsume_no_shuffle σ L L.length 0 hn]
    show LayerState.mk L ((0 + L.length) % L.length) = _
    congr 1
    simp
  · rw [cursorConsume_no_shuffle σ L (L.length + 1) 0 hn]
    show (List.range (L.length + 1)).map _ = _
    rw [hmap, List.range_succ, List.map_append, hmod]
    simp [Nat.mod_self]

/-- Witness for `c4_cursor_traversal` on a concrete two-entry dataset. -/
theorem c4_cursor_traversal_witness :
    (cursorConsume false id [eA, eB].length ⟨[eA, eB], 0⟩).1 = [eA, eB].map some ∧
    (cursorConsume false id [eA, eB].length ⟨[eA, eB], 0⟩).2 = ⟨[eA, eB], 0⟩ ∧
    (cursorConsume false id ([eA, eB].length + 1) ⟨[eA, eB], 0⟩).1
      = [eA, eB].map some ++ [[eA, eB][0]?] :=
  c4_cursor_traversal [eA, eB] id (by decide)

/-- C2: with shuffling disabled, on a dataset whose entry at index `k` is the
only unreadable one, batch production raises no fatal error: the
shape-inference load at the start of the batch skip-and-retries to the first
readable entry (the one following `k` when `k` is first, else the first
entry), and the batch-fill loop, applying the same skip-and-retry per slot,
fills the batch with exactly the first `batch_size` entries of the dataset
with index `k` excluded - each unreadable entry's content is replaced by the
entry that follows it. -/
theorem c2_skip_and_retry (L : List Entry) (k b : Nat) (readable : String → Bool)
    (σ : List Entry → List Entry)
    (hk : k < L.length) (hn : 2 ≤ L.length)
    (hr : ∀ (j : Nat) (hj : j < L.length), readable (L[j].filename) = decide (j ≠ k))
    (hb : b ≤ L.length - 1) :
    (∃ e st', retryLoad readable false σ L.length ⟨L, 0⟩ = some (e, st') ∧
        e = (L.eraseIdx k).headI) ∧
    (∃ items stf, fillItems readable false σ L.length b ⟨L, 0⟩ = some (items, stf) ∧
        items.map Prod.snd = (L.eraseIdx k).take b) := by
  constructor
  · cases k with
    | zero =>
        obtain ⟨f, hf⟩ : ∃ f, L.length = f + 2 := ⟨L.length - 2, by omega⟩
        have h1 : (1 : Nat) < L.length := by omega
        have hku : readable (L[0].filename) = false := by
          have h0 := hr 0 (by omega)
          simpa using h0
        have hkr : readable (L[1].filename) = true := by
          have h0 := hr 1 h1
          simpa using h0
        rw [hf]
        refine ⟨L[1], ⟨L, 1⟩, retry_skip_one readable σ f L 0 h1 hku hkr, ?_⟩
        cases L with
        | nil => simp at hk
        | cons x xs =>
            cases xs with
            | nil => simp at hn
            | cons y ys => rfl
    | succ k' =>
        obtain ⟨f, hf⟩ : ∃ f, L.length = f + 1 := ⟨L.length - 1, by omega⟩
        have h0 : (0 : Nat) < L.length := by omega
        have h0r : readable (L[0].filename) = true := by
          have h00 := hr 0 h0
          simpa using h00
        rw [hf]
        refine ⟨L[0], ⟨L, 0⟩, retry_hit readable false σ f L 0 h0 h0r, ?_⟩
        cases L with
        | nil => simp at hk
        | cons x xs =>
            rw [List.eraseIdx_cons_succ]
            simp
  · obtain ⟨items, stf, heq, hfst, hsnd⟩ :=
      fill_skip L k readable σ L.length hk hr hn b 0 (by omega)
        (by rw [if_pos (by omega)]; omega)
    refine ⟨items, stf, heq, ?_⟩
    rw [hsnd, Nat.sub_zero, ← List.range_eq_range', List.map_take,
      map_getD_filter_range L k hk]

/-- Witness for `c2_skip_and_retry`: the three-entry dataset
`[eA, eB, eC]` with only `eB` unreadable and batch size 2. -/
theorem c2_skip_and_retry_witness :
    (∃ e st', retryLoad (fun s => decide (s ≠ "b")) false id [eA, eB, eC].length
        ⟨[eA, eB, eC], 0⟩ = some (e, st') ∧ e = ([eA, eB, eC].eraseIdx 1).headI) ∧
    (∃ items stf, fillItems (fun s => decide (s ≠ "b")) false id [eA, eB, eC].length 2
        ⟨[eA, eB, eC], 0⟩ = some (items, stf) ∧
        items.map Prod.snd = ([eA, eB, eC].eraseIdx 1).take 2) :=
  c2_skip_and_retry [eA, eB, eC] 1 2 (fun s => decide (s ≠ "b")) id
    (by decide) (by decide) (by decide) (by decide)

/-- C8: with shuffling disabled and every image load succeeding, on a
dataset larger than twice the batch size, two immediately consecutive runs
of the batch-fill loop consume contiguous-modulo-wraparound index ranges of
length `batch_size` each, and the two ranges are disjoint. -/
theorem c8_disjoint_batches (L : List Entry) (readable : String → Bool)
    (σ : List Entry → List Entry) (i b : Nat)
    (hall : ∀ e ∈ L, readable e.filename = true)
    (hi : i < L.length) (hb : 2 * b < L.length) :
    ∃ r1 r2,
      fillItems readable false σ L.length b ⟨L, i⟩ = some r1 ∧
      fillItems readable false σ L.length b r1.2 = some r2 ∧
      r1.1.map Prod.fst = (List.range b).map (fun a => (i + a) % L.length) ∧
      r2.1.map Prod.fst = (List.range b).map (fun a => (i + b + a) % L.length) ∧
      ∀ x ∈ r1.1.map Prod.fst, x ∉ r2.1.map Prod.fst := by
  obtain ⟨f, hf⟩ : ∃ f, L.length = f + 1 := ⟨L.length - 1, by omega⟩
  have h1 := fill_all_readable readable σ L hall f b i hi
  rw [← hf] at h1
  have hlt2 : (i + b) % L.length < L.length := Nat.mod_lt _ (by omega)
  have h2 := fill_all_readable readable σ L hall f b ((i + b) % L.length) hlt2
  rw [← hf] at h2
  have e3 : ((List.range b).map
        (fun a => ((i + a) % L.length, L.getD ((i + a) % L.length) default))).map Prod.fst
      = (List.range b).map (fun a => (i + a) % L.length) := by
    rw [List.map_map]; rfl
  have e4 : ((List.range b).map
        (fun a => (((i + b) % L.length + a) % L.length,
          L.getD (((i + b) % L.length + a) % L.length) default))).map Prod.fst
      = (List.range b).map (fun a => (i + b + a) % L.length) := by
    rw [List.map_map]
    refine List.map_congr_left ?_
    intro a _
    show ((i + b) % L.length + a) % L.length = (i + b + a) % L.length
    rw [Nat.mod_add_mod]
  have e5 : ∀ x ∈ (List.range b).map (fun a => (i + a) % L.length),
      x ∉ (List.range b).map (fun a => (i + b + a) % L.length) := by
    intro x hx1 hx2
    obtain ⟨a1, ha1, hxa1⟩ := List.mem_map.mp hx1
    obtain ⟨a2, ha2, hxa2⟩ := List.mem_map.mp hx2
    rw [List.mem_range] at ha1 ha2
    have hme : Nat.ModEq L.length a1 (b + a2) := by
      refine Nat.ModEq.add_left_cancel' i ?_
      show (i + a1) % L.length = (i + (b + a2)) % L.length
      rw [hxa1, ← Nat.add_assoc]
      exact hxa2.symm
    rw [Nat.ModEq, Nat.mod_eq_of_lt (by omega), Nat.mod_eq_of_lt (by omega)] at hme
    omega
  refine ⟨_, _, h1, h2, e3, e4, ?_⟩
  rw [e3, e4]
  exact e5

/-- Witness for `c8_disjoint_batches` on a five-entry dataset with batch
size 2 starting at index 0. -/
theorem c8_disjoint_batches_witness :
    ∃ r1 r2,
      fillItems (fun _ => true) false id [eA, eB, eC, eD, eE].length 2
          ⟨[eA, eB, eC, eD, eE], 0⟩ = some r1 ∧
      fillItems (fun _ => true) false id [eA, eB, eC, eD, eE].length 2 r1.2 = some r2 ∧
      r1.1.map Prod.fst = (List.range 2).map (fun a => (0 + a) % [eA, eB, eC, eD, eE].length) ∧
      r2.1.map Prod.fst = (List.range 2).map (fun a => (0 + 2 + a) % [eA, eB, eC, eD, eE].length) ∧
      ∀ x ∈ r1.1.map Prod.fst, x ∉ r2.1.map Prod.fst :=
  c8_disjoint_batches [eA, eB, eC, eD, eE] (fun _ => true) id 0 2
    (by decide) (by decide) (by decide)

/-- C7: whenever `load_batch` produces a batch, the entry used for shape
inference is exactly the first successfully loaded entry of the batch-fill
loop (the shape-inference retry leaves the cursor on the entry it found, so
slot 0 reloads it), and the batch's data tensor shape is the shape inferred
from that entry's decoded image with its first component replaced by
`batch_size` - one fixed shape for the whole batch, recomputed per batch. -/
theorem c7_shape_inference (readable : String → Bool) (inferShape : String → List Int)
    (ds : Bool) (σ : List Entry → List Entry) (useLabel ignoreLabel : Int)
    (b nl fuel : Nat) (st : LayerState) (out : BatchOut) (hb : 1 ≤ b)
    (h : load_batch readable inferShape ds σ useLabel ignoreLabel b nl fuel st = some out) :
    out.dataShape = (inferShape out.shapeEntry.filename).set 0 (b : Int) ∧
    (out.items.map Prod.snd).head? = some out.shapeEntry := by
  rw [load_batch_eq] at h
  cases hre : retryLoad readable ds σ fuel st with
  | none => rw [hre] at h; simp at h
  | some r =>
      obtain ⟨e, st1⟩ := r
      rw [hre, Option.some_bind] at h
      obtain ⟨f, hfuel⟩ : ∃ f, fuel = f + 1 := by
        cases fuel with
        | zero => rw [retryLoad] at hre; simp at hre
        | succ f => exact ⟨f, rfl⟩
      have hpost := retry_post readable ds σ fuel st e st1 hre
      obtain ⟨b0, hb0⟩ : ∃ b0, b = b0 + 1 := ⟨b - 1, by omega⟩
      subst hb0; subst hfuel
      rw [fillItems_succ, retry_stable readable ds σ f st1 e hpost.1 hpost.2,
        Option.some_bind] at h
      cases hfr : fillItems readable ds σ (f + 1) b0 (advanceCursor ds σ st1) with
      | none => rw [hfr] at h; simp at h
      | some rest =>
          rw [hfr, Option.some_bind, Option.some_bind] at h
          cases hbl : batchLabels useLabel ignoreLabel nl
              (((st1.lines_id_, e) :: rest.1).map Prod.snd) with
          | none => rw [hbl] at h; simp at h
          | some rows =>
              rw [hbl, Option.some_bind] at h
              have hout := Option.some.inj h
              rw [← hout]
              exact ⟨rfl, rfl⟩

/-- Witness for `c7_shape_inference` on the two-entry dataset `[eA, eB]`
with batch size 2. -/
theorem c7_shape_inference_witness :
    outAB.dataShape
      = ((fun _ => ([1, 3, 4, 5] : List Int)) outAB.shapeEntry.filename).set 0 ((2 : Nat) : Int) ∧
    (outAB.items.map Prod.snd).head? = some outAB.shapeEntry :=
  c7_shape_inference (fun _ => true) (fun _ => ([1, 3, 4, 5] : List Int)) false id
    1 (-1) 2 1 1 ⟨[eA, eB], 0⟩ outAB (by decide) (by decide)

end HAKE
